import Mathlib

/-!
Shallow embedding of `src/main.py` of claude-usage-curses: the category
normalizer (`parse_usage`), the glide-slope calculator (`calc_glide_slope`),
the bar renderer (`draw_bar`), the focus-event parser and refresh scheduler
from the `main` loop, and the fetch routine (`do_fetch`).

Modelling conventions:
* Python numbers (floats/ints) are modelled as rationals `ℚ`.
* Timestamps (`time.time()`, parsed ISO instants) are rationals (seconds).
* `datetime.fromisoformat` is abstracted: a `resets_at` string that is
  absent, falsy or unparsable is modelled as `none : Option ℚ`, a parsable
  one as `some` of its absolute timestamp.
* The decoded JSON payload is an association list `List (String × JsonVal)`
  in iteration order; a value is either an object carrying the two fields
  the code reads (`utilization`, `resets_at`) or some other value.
* The curses window in `draw_bar` is assumed tall/wide enough (the claims
  concern the cell-state computation, not the clipping to the window).
-/

/-- A decoded JSON value as `parse_usage` distinguishes them: a dict with the
two fields the code extracts, or anything that is not a dict. -/
inductive JsonVal where
  | obj (utilization : Option ℚ) (resets_at : Option ℚ)
  | other
deriving DecidableEq

/-- `WINDOW_DURATIONS` dict from `main.py` (seconds):
`5 * 3600 = 18000` and `7 * 24 * 3600 = 604800`, written as their values. -/
def WINDOW_DURATIONS (key : String) : Option ℚ :=
  if key = "five_hour" then some 18000
  else if key = "seven_day" then some 604800
  else if key = "seven_day_opus" then some 604800
  else if key = "seven_day_sonnet" then some 604800
  else none

/-- `DISPLAY_NAMES` dict from `main.py`. -/
def DISPLAY_NAMES (key : String) : Option String :=
  if key = "five_hour" then some "Current session"
  else if key = "seven_day" then some "All models (7-day)"
  else if key = "seven_day_opus" then some "Opus only (7-day)"
  else if key = "seven_day_sonnet" then some "Sonnet only (7-day)"
  else none

/-- `CATEGORY_ORDER` list from `main.py`. -/
def CATEGORY_ORDER : List String :=
  ["five_hour", "seven_day", "seven_day_opus", "seven_day_sonnet"]

/-- Title-case a character list: uppercase a character that starts a word,
lowercase the rest (`str.title()`), where words are separated by spaces. -/
def titleChars : List Char → Bool → List Char
  | [], _ => []
  | c :: cs, atStart =>
      (if atStart then c.toUpper else c.toLower) :: titleChars cs (c = ' ')

/-- `key.replace("_", " ").title()` from `main.py`. -/
def humanize (s : String) : String :=
  String.mk (titleChars (s.data.map (fun c => if c = '_' then ' ' else c)) true)

/-- One element of the list `parse_usage` returns. -/
structure UsageCategory where
  key : String
  name : String
  utilization : ℚ
  resets_at : Option ℚ
  window_seconds : ℚ
deriving DecidableEq

/-- `data[key]` on the decoded payload: first binding of `key`. -/
def lookupVal (data : List (String × JsonVal)) (key : String) : Option JsonVal :=
  (data.find? (fun kv => kv.1 = key)).map (fun kv => kv.2)

/-- The `seen` set after the first loop of `parse_usage`: every key of
`CATEGORY_ORDER` that is present in the payload (added before the
`isinstance` check). -/
def seenKeys (data : List (String × JsonVal)) : List String :=
  CATEGORY_ORDER.filter (fun k => (lookupVal data k).isSome)

/-- `parse_usage` from `main.py`: known categories in canonical order first,
then leftover dict-valued keys in payload order; entries with both fields
absent (or non-dict values) are skipped; a missing `utilization` defaults
to `0.0`. -/
def parse_usage (data : List (String × JsonVal)) : List UsageCategory :=
  (CATEGORY_ORDER.filterMap (fun key =>
    match lookupVal data key with
    | none => none
    | some JsonVal.other => none
    | some (JsonVal.obj utilization resets_at) =>
        if utilization = none ∧ resets_at = none then none
        else some { key := key
                    name := (DISPLAY_NAMES key).getD key
                    utilization := utilization.getD 0
                    resets_at := resets_at
                    window_seconds := (WINDOW_DURATIONS key).getD 18000 }))
  ++ data.filterMap (fun kv =>
    if kv.1 ∈ seenKeys data then none
    else match kv.2 with
    | JsonVal.other => none
    | JsonVal.obj utilization resets_at =>
        if utilization = none ∧ resets_at = none then none
        else some { key := kv.1
                    name := (DISPLAY_NAMES kv.1).getD (humanize kv.1)
                    utilization := utilization.getD 0
                    resets_at := resets_at
                    window_seconds := (WINDOW_DURATIONS kv.1).getD 604800 })

/-- `calc_glide_slope` from `main.py`; `resets_at` is the parsed instant
(`none` = absent, falsy or unparsable string), `now` the current instant. -/
def calc_glide_slope (resets_at : Option ℚ) (window_seconds : ℚ) (now : ℚ) : ℚ :=
  match resets_at with
  | none => 0
  | some r =>
      let remaining := r - now
      let elapsed := window_seconds - remaining
      if window_seconds ≤ 0 then 0
      else max 0 (min 100 (elapsed / window_seconds * 100))

/-- Raw-entry predicate used to state the amended C1: whenever a dict entry
carries a `utilization` value, that value lies in `[0, 100]`. -/
def entryUtilOK : JsonVal → Bool
  | JsonVal.obj (some u) _ => decide (0 ≤ u ∧ u ≤ 100)
  | JsonVal.obj none _ => true
  | JsonVal.other => true

/-- Python's `round` (round half to even) on a rational, as applied by
`int(round(x))` in `draw_bar`. -/
def pyRound (q : ℚ) : ℤ :=
  if q - ⌊q⌋ < 1 / 2 then ⌊q⌋
  else if 1 / 2 < q - ⌊q⌋ then ⌊q⌋ + 1
  else if ⌊q⌋ % 2 = 0 then ⌊q⌋ else ⌊q⌋ + 1

/-- `usage_pos` in `draw_bar`: `max(0, min(width, round(usage_pct/100*width)))`. -/
def usage_pos (width : ℤ) (usage_pct : ℚ) : ℤ :=
  max 0 (min width (pyRound (usage_pct / 100 * width)))

/-- `glide_pos` in `draw_bar`: `max(0, min(width-1, round(glide_pct/100*width)))`. -/
def glide_pos (width : ℤ) (glide_pct : ℚ) : ℤ :=
  max 0 (min (width - 1) (pyRound (glide_pct / 100 * width)))

/-- Visual state of one bar cell, matching the attribute chosen per cell in
`draw_bar`: color pair 1 = fillNormal, 2 = fillOver, 3 = empty, 4 (bold
marker on fill) = markerFilled, 8 (bold marker on empty) = markerEmpty. -/
inductive CellState where
  | fillNormal
  | fillOver
  | empty
  | markerFilled
  | markerEmpty
deriving DecidableEq

/-- The state `draw_bar` paints at cell `i` (the loop body, lines 235-271). -/
def cellState (width : ℤ) (usage_pct glide_pct : ℚ) (i : ℤ) : CellState :=
  if i = glide_pos width glide_pct then
    if glide_pct < usage_pct then CellState.markerFilled else CellState.markerEmpty
  else if i < usage_pos width usage_pct then
    if glide_pct < usage_pct ∧ glide_pos width glide_pct ≤ i then CellState.fillOver
    else CellState.fillNormal
  else CellState.empty

/-- `draw_bar` from `main.py` as the sequence of `(cell index, state)` pairs
it writes, for a window wide and tall enough that no clipping occurs;
`width < 3` produces nothing. -/
def draw_bar (width : ℤ) (usage_pct glide_pct : ℚ) : List (ℤ × CellState) :=
  if width < 3 then []
  else (List.range width.toNat).map
    (fun n : ℕ => ((n : ℤ), cellState width usage_pct glide_pct (n : ℤ)))

/-- State of the inline focus-event parser in `main`: the escape buffer, the
timestamp recorded when the buffer was started, and `has_focus`.
`escape_buf = []` is the Idle state, `[27]` is SawEsc, `[27, 91]` is
SawEscBracket. -/
structure InputState where
  escape_buf : List ℤ
  escape_time : ℚ
  has_focus : Bool
deriving DecidableEq

/-- The escape-sequence branch of the `main` loop (lines 409-424) on reading
byte `ch` at time `t`.  `ch = 27` always restarts the buffer; otherwise, with
a pending buffer, the byte is appended and the buffer is interpreted; with no
pending buffer the byte is an ordinary keystroke and the focus fields are
untouched. -/
def processByte (s : InputState) (t : ℚ) (ch : ℤ) : InputState :=
  if ch = 27 then
    { s with escape_buf := [27], escape_time := t }
  else if s.escape_buf ≠ [] then
    let buf := s.escape_buf ++ [ch]
    if buf.length = 2 ∧ buf.head? = some 27 ∧ ch = 91 then
      { s with escape_buf := buf }
    else if buf.length = 3 ∧ buf.head? = some 27 ∧ buf[1]? = some 91 then
      if ch = 73 then { s with escape_buf := [], has_focus := true }
      else if ch = 79 then { s with escape_buf := [], has_focus := false }
      else { s with escape_buf := [] }
    else { s with escape_buf := [] }
  else s

/-- The stale-buffer guard of the `main` loop (lines 433-434), evaluated at
time `t` after the byte was processed. -/
def staleClear (s : InputState) (t : ℚ) : InputState :=
  if s.escape_buf ≠ [] ∧ 1 / 2 < t - s.escape_time then
    { s with escape_buf := [] }
  else s

/-- One loop iteration's effect on the parser state: process the byte, then
run the stale-buffer guard (the guard runs after the byte, as in the code). -/
def loopStep (s : InputState) (t : ℚ) (ch : ℤ) : InputState :=
  staleClear (processByte s t ch) t

/-- Feed a timed byte trace through successive loop iterations. -/
def runTrace (s : InputState) : List (ℚ × ℤ) → InputState
  | [] => s
  | (t, ch) :: rest => runTrace (loopStep s t ch) rest

/-- `REFRESH_FOCUSED` from `main.py` (seconds). -/
def REFRESH_FOCUSED : ℚ := 30

/-- `REFRESH_UNFOCUSED` from `main.py` (seconds). -/
def REFRESH_UNFOCUSED : ℚ := 600

/-- The fetch-related mutable state of `main`: `categories`,
`last_fetch_time` (`none` before the first success), `last_fetch_attempt`
(initialised to `0`), `error_msg`. -/
structure FetchState where
  categories : List UsageCategory
  last_fetch_time : Option ℚ
  last_fetch_attempt : ℚ
  error_msg : Option String
deriving DecidableEq

/-- Outcome of the external collaborators inside one `do_fetch` call:
`get_access_token` failed, `fetch_usage` failed, or both succeeded with the
decoded payload. -/
inductive FetchOutcome where
  | credErr (msg : String)
  | netErr (msg : String)
  | ok (data : List (String × JsonVal))
deriving DecidableEq

/-- `do_fetch` from `main` (lines 383-396): stamp the attempt time `tA`
first; on a credential or network error set `error_msg` and return; on
success clear `error_msg`, replace `categories`, and stamp
`last_fetch_time` with `tS`. -/
def do_fetch (s : FetchState) (outcome : FetchOutcome) (tA tS : ℚ) : FetchState :=
  let s1 := { s with last_fetch_attempt := tA }
  match outcome with
  | FetchOutcome.credErr m => { s1 with error_msg := some m }
  | FetchOutcome.netErr m => { s1 with error_msg := some m }
  | FetchOutcome.ok data =>
      { s1 with error_msg := none
                categories := parse_usage data
                last_fetch_time := some tS }

/-- The scheduler check of the `main` loop (lines 437-444): with a past
success, fetch when the focus-dependent interval has elapsed since it;
otherwise fetch when an error is set and at least 10 s have elapsed since
the last attempt. -/
def shouldFetch (fs : FetchState) (has_focus : Bool) (now : ℚ) : Bool :=
  match fs.last_fetch_time with
  | some lft =>
      decide ((if has_focus then REFRESH_FOCUSED else REFRESH_UNFOCUSED) ≤ now - lft)
  | none => fs.error_msg.isSome && decide ((10 : ℚ) ≤ now - fs.last_fetch_attempt)

/-- The scheduler condition exactly as claim C8 words it, to be compared
with `shouldFetch`. -/
def schedulerSpec (fs : FetchState) (has_focus : Bool) (now : ℚ) : Prop :=
  (∃ lft, fs.last_fetch_time = some lft ∧
      ((has_focus = true ∧ 30 ≤ now - lft) ∨ (has_focus = false ∧ 600 ≤ now - lft)))
  ∨ (fs.last_fetch_time = none ∧ fs.error_msg ≠ none ∧ 10 ≤ now - fs.last_fetch_attempt)

/-- Full per-iteration state of the `main` loop (parser fields + fetch
fields). -/
structure LoopState where
  input : InputState
  fetch : FetchState
deriving DecidableEq

/-- One iteration of the `main` loop (lines 402-444) at time `t`, reading
`ch` (`-1` models a `getch` timeout): escape handling or command dispatch
(`q`/`Q` = 113/81 break the loop, modelled as no state change; `r`/`R` =
114/82 call `do_fetch` with outcome `o1`), then the stale-buffer guard,
then the scheduler check, calling `do_fetch` with outcome `o2` when it
fires.  Rendering does not change the state and is omitted. -/
def loopIter (s : LoopState) (t : ℚ) (ch : ℤ) (o1 o2 : FetchOutcome) : LoopState :=
  let s1 : LoopState :=
    if ch = 27 ∨ s.input.escape_buf ≠ [] then
      { s with input := processByte s.input t ch }
    else if ch = 113 ∨ ch = 81 then s
    else if ch = 114 ∨ ch = 82 then { s with fetch := do_fetch s.fetch o1 t t }
    else s
  let s2 : LoopState := { s1 with input := staleClear s1.input t }
  if shouldFetch s2.fetch s2.input.has_focus t then
    { s2 with fetch := do_fetch s2.fetch o2 t t }
  else s2

/-- Run the `main` loop over a trace of iterations, each supplying the
iteration time, the byte read, and the outcomes of the up to two `do_fetch`
calls the iteration may make. -/
def runLoop (s : LoopState) : List (ℚ × ℤ × FetchOutcome × FetchOutcome) → LoopState
  | [] => s
  | (t, ch, o1, o2) :: rest => runLoop (loopIter s t ch o1 o2) rest

/-- The C10 invariant on the fetch state: a success timestamp or an error
message is present. -/
def fetchInv (fs : FetchState) : Prop :=
  fs.last_fetch_time ≠ none ∨ fs.error_msg ≠ none

/-! ## Helper lemmas -/

/-- A successful `lookupVal` comes from a binding of the payload. -/
theorem lookupVal_mem {data : List (String × JsonVal)} {key : String} {v : JsonVal}
    (h : lookupVal data key = some v) : (key, v) ∈ data := by
  unfold lookupVal at h
  rcases Option.map_eq_some'.mp h with ⟨kv, hfind, hv⟩
  have hmem := List.mem_of_find?_eq_some hfind
  have hp := List.find?_some hfind
  have hk : kv.1 = key := by simpa using hp
  rw [← hv, ← hk]
  exact hmem

/-- Provenance of the `utilization` field: every category `parse_usage`
produces carries either the default `0` or the `utilization` value of some
dict entry of the payload. -/
theorem parse_usage_utilization {data : List (String × JsonVal)} {c : UsageCategory}
    (hc : c ∈ parse_usage data) :
    c.utilization = 0 ∨
      ∃ k u r, (k, JsonVal.obj (some u) r) ∈ data ∧ c.utilization = u := by
  unfold parse_usage at hc
  rcases List.mem_append.mp hc with h | h
  · rcases List.mem_filterMap.mp h with ⟨key, hkey, hf⟩
    cases hv : lookupVal data key with
    | none => rw [hv] at hf; simp at hf
    | some v =>
      rw [hv] at hf
      cases v with
      | other => simp at hf
      | obj util ra =>
        simp only at hf
        split at hf
        · simp at hf
        · rw [Option.some_inj] at hf
          cases util with
          | none =>
            left
            rw [← hf]; rfl
          | some u =>
            right
            refine ⟨key, u, ra, lookupVal_mem hv, ?_⟩
            rw [← hf]; rfl
  · rcases List.mem_filterMap.mp h with ⟨kv, hkv, hf⟩
    split at hf
    · simp at hf
    · split at hf
      · simp at hf
      · rename_i util ra heq
        split at hf
        · simp at hf
        · rw [Option.some_inj] at hf
          cases util with
          | none =>
            left
            rw [← hf]; rfl
          | some u =>
            right
            have hkv2 : kv = (kv.1, JsonVal.obj (some u) ra) := by
              rw [Prod.ext_iff]
              exact ⟨rfl, heq⟩
            refine ⟨kv.1, u, ra, ?_, ?_⟩
            · rw [← hkv2]
              exact hkv
            · rw [← hf]; rfl

/-! ## C1 -/

/-- C1 counterexample: `parse_usage` does not clamp: a raw entry with
`utilization = 150` yields a category whose `utilization` is `150`, outside
`[0, 100]`. -/
theorem parse_usage_no_clamp_cex :
    (parse_usage [("five_hour", JsonVal.obj (some 150) none)]).map
        (fun c => c.utilization) = [150] ∧ ¬ ((150 : ℚ) ≤ 100) := by
  constructor
  · decide
  · norm_num

/-- C1 (amended): `parse_usage` passes `utilization` through unclamped
(defaulting an absent value to `0`), so every produced category has
`utilization ∈ [0, 100]` provided every raw `utilization` value in the
payload lies in `[0, 100]`. -/
theorem parse_usage_utilization_in_range (data : List (String × JsonVal))
    (c : UsageCategory) (hall : ∀ kv ∈ data, entryUtilOK kv.2 = true)
    (hc : c ∈ parse_usage data) :
    0 ≤ c.utilization ∧ c.utilization ≤ 100 := by
  rcases parse_usage_utilization hc with h0 | ⟨k, u, r, hmem, hu⟩
  · rw [h0]; norm_num
  · have hok := hall _ hmem
    simp only [entryUtilOK, decide_eq_true_eq] at hok
    rw [hu]
    exact hok

/-- C1 (amended) witness at a concrete in-range payload. -/
theorem parse_usage_utilization_in_range_witness :
    0 ≤ (⟨"five_hour", "Current session", 50, none, 18000⟩ : UsageCategory).utilization ∧
    (⟨"five_hour", "Current session", 50, none, 18000⟩ : UsageCategory).utilization ≤ 100 :=
  parse_usage_utilization_in_range [("five_hour", JsonVal.obj (some 50) none)]
    ⟨"five_hour", "Current session", 50, none, 18000⟩ (by decide) (by decide)

/-! ## C5 -/

/-- C5: `calc_glide_slope` always lands in `[0, 100]`; it returns `0` for an
absent/unparsable reset time and for a degenerate window; it returns `100`
when the reset instant is `now` and the window is positive, and `0` when the
reset instant is exactly `window_seconds` in the future. -/
theorem calc_glide_slope_props (r : Option ℚ) (W now : ℚ) :
    (0 ≤ calc_glide_slope r W now ∧ calc_glide_slope r W now ≤ 100) ∧
    calc_glide_slope none W now = 0 ∧
    (W ≤ 0 → calc_glide_slope r W now = 0) ∧
    (0 < W → calc_glide_slope (some now) W now = 100) ∧
    calc_glide_slope (some (now + W)) W now = 0 := by
  refine ⟨?_, rfl, ?_, ?_, ?_⟩
  · cases r with
    | none => norm_num [calc_glide_slope]
    | some x =>
      simp only [calc_glide_slope]
      split
      · norm_num
      · constructor
        · exact le_max_left 0 _
        · exact max_le (by norm_num) (min_le_left 100 _)
  · intro hW
    cases r with
    | none => rfl
    | some x => simp [calc_glide_slope, hW]
  · intro hW
    have hne : W ≠ 0 := ne_of_gt hW
    simp only [calc_glide_slope, sub_self, sub_zero, not_le.mpr hW, if_false]
    rw [div_self hne]
    norm_num
  · simp only [calc_glide_slope, add_sub_cancel_left, sub_self]
    split
    · rfl
    · rw [zero_div]
      norm_num

/-- C5 witness: the degenerate-window and reset-now conclusions at concrete
inputs. -/
theorem calc_glide_slope_props_witness :
    calc_glide_slope (some 0) (-2) 0 = 0 ∧
    calc_glide_slope (some 5) 2 5 = 100 ∧
    0 ≤ calc_glide_slope (some 7) 2 5 :=
  ⟨(calc_glide_slope_props (some 0) (-2) 0).2.2.1 (by norm_num),
   (calc_glide_slope_props (some 5) 2 5).2.2.2.1 (by norm_num),
   (calc_glide_slope_props (some 7) 2 5).1.1⟩

/-! ## Bar renderer helpers -/

/-- `pyRound` fixes integers. -/
theorem pyRound_intCast (n : ℤ) : pyRound (n : ℚ) = n := by
  norm_num [pyRound]

/-- `usage_pos` at `usage_pct = 100` is the full width. -/
theorem usage_pos_hundred (width : ℤ) (h : 0 ≤ width) : usage_pos width 100 = width := by
  have hq : (100 : ℚ) / 100 * (width : ℚ) = ((width : ℤ) : ℚ) := by norm_num
  rw [usage_pos, hq, pyRound_intCast]
  omega

/-- `usage_pos` at `usage_pct = 0` is zero. -/
theorem usage_pos_zero (width : ℤ) (h : 0 ≤ width) : usage_pos width 0 = 0 := by
  have hq : (0 : ℚ) / 100 * (width : ℚ) = ((0 : ℤ) : ℚ) := by norm_num
  rw [usage_pos, hq, pyRound_intCast]
  omega

/-- `glide_pos` at `glide_pct = 100` is the last cell. -/
theorem glide_pos_hundred (width : ℤ) (h : 1 ≤ width) : glide_pos width 100 = width - 1 := by
  have hq : (100 : ℚ) / 100 * (width : ℚ) = ((width : ℤ) : ℚ) := by norm_num
  rw [glide_pos, hq, pyRound_intCast]
  omega

/-- `glide_pos` at `glide_pct = 0` is the first cell. -/
theorem glide_pos_zero (width : ℤ) (h : 1 ≤ width) : glide_pos width 0 = 0 := by
  have hq : (0 : ℚ) / 100 * (width : ℚ) = ((0 : ℤ) : ℚ) := by norm_num
  rw [glide_pos, hq, pyRound_intCast]
  omega

/-- Membership in the cell list `draw_bar` produces, for a non-degenerate
width. -/
theorem mem_draw_bar {width : ℤ} {u g : ℚ} {i : ℤ} {s : CellState}
    (h3 : 3 ≤ width) :
    (i, s) ∈ draw_bar width u g ↔ 0 ≤ i ∧ i < width ∧ s = cellState width u g i := by
  unfold draw_bar
  rw [if_neg (by omega)]
  rw [List.mem_map]
  constructor
  · rintro ⟨a, ha, heq⟩
    rw [List.mem_range] at ha
    rw [Prod.ext_iff] at heq
    obtain ⟨hfst, hsnd⟩ := heq
    simp only at hfst hsnd
    refine ⟨?_, ?_, ?_⟩
    · rw [← hfst]
      omega
    · rw [← hfst]
      omega
    · rw [← hsnd, ← hfst]
  · rintro ⟨h0, hw, hs⟩
    refine ⟨i.toNat, ?_, ?_⟩
    · rw [List.mem_range]
      omega
    · rw [Prod.ext_iff]
      refine ⟨?_, ?_⟩
      · simp only
        rw [Int.toNat_of_nonneg h0]
      · simp only
        rw [Int.toNat_of_nonneg h0, hs]

/-! ## C6 -/

/-- C6: the marker cell index computed by `draw_bar` is
`round(glide_pct/100 · width)` clamped to `[0, width − 1]`, hence always in
`[0, width)` for `width ≥ 3` whatever the two percentages are, and at
`glide_pct = 100` it is exactly `width − 1`. -/
theorem glide_pos_in_range (width : ℤ) (_usage_pct glide_pct : ℚ)
    (h3 : 3 ≤ width) :
    0 ≤ glide_pos width glide_pct ∧
    glide_pos width glide_pct < width ∧
    glide_pos width glide_pct
      = max 0 (min (width - 1) (pyRound (glide_pct / 100 * width))) ∧
    glide_pos width 100 = width - 1 := by
  refine ⟨?_, ?_, rfl, glide_pos_hundred width (by omega)⟩
  · rw [glide_pos]
    omega
  · rw [glide_pos]
    omega

/-- C6 witness at `width = 5`. -/
theorem glide_pos_in_range_witness :
    0 ≤ glide_pos 5 100 ∧ glide_pos 5 100 < 5 ∧
    glide_pos 5 100 = max 0 (min (5 - 1) (pyRound ((100 : ℚ) / 100 * 5))) ∧
    glide_pos 5 100 = 5 - 1 :=
  glide_pos_in_range 5 0 100 (by norm_num)

/-! ## C7 -/

/-- C7: for `width ≥ 3`, a non-marker cell of `draw_bar` is filled exactly
when its index is below `usage_pos`, and filled-over exactly when
additionally the bar is over budget (`glide_pct < usage_pct`) and the index
is at or past the marker; with `usage_pct = 0` no cell is filled, with
`usage_pct = 100` every non-marker cell is filled; for `width < 3` the
renderer produces nothing. -/
theorem draw_bar_cells (width : ℤ) (u g : ℚ) :
    (width < 3 → draw_bar width u g = []) ∧
    (3 ≤ width → ∀ i s, (i, s) ∈ draw_bar width u g → i ≠ glide_pos width g →
      ((s = CellState.fillNormal ∨ s = CellState.fillOver ↔ i < usage_pos width u) ∧
       (s = CellState.fillOver ↔
          i < usage_pos width u ∧ g < u ∧ glide_pos width g ≤ i))) ∧
    (3 ≤ width → u = 0 → ∀ i s, (i, s) ∈ draw_bar width u g →
       s ≠ CellState.fillNormal ∧ s ≠ CellState.fillOver) ∧
    (3 ≤ width → u = 100 → ∀ i s, (i, s) ∈ draw_bar width u g →
       i ≠ glide_pos width g →
       s = CellState.fillNormal ∨ s = CellState.fillOver) := by
  refine ⟨?_, ?_, ?_, ?_⟩
  · intro hw
    unfold draw_bar
    rw [if_pos hw]
  · intro h3 i s hmem hne
    rcases (mem_draw_bar h3).mp hmem with ⟨h0, hw, hs⟩
    rw [hs]
    unfold cellState
    rw [if_neg hne]
    by_cases hfill : i < usage_pos width u
    · rw [if_pos hfill]
      by_cases hover : g < u ∧ glide_pos width g ≤ i
      · rw [if_pos hover]
        simp [hfill, hover]
      · rw [if_neg hover]
        simp [hfill, hover]
    · rw [if_neg hfill]
      simp [hfill]
  · intro h3 hu i s hmem
    rcases (mem_draw_bar h3).mp hmem with ⟨h0, hw, hs⟩
    rw [hs, hu]
    unfold cellState
    have hzero : usage_pos width 0 = 0 := usage_pos_zero width (by omega)
    split
    · split <;> simp
    · rw [if_neg (by omega)]
      simp
  · intro h3 hu i s hmem hne
    rcases (mem_draw_bar h3).mp hmem with ⟨h0, hw, hs⟩
    rw [hs, hu]
    unfold cellState
    have hfull : usage_pos width 100 = width := usage_pos_hundred width (by omega)
    rw [if_neg hne]
    rw [if_pos (by omega)]
    split
    · right; rfl
    · left; rfl

/-- C7 witness: a degenerate width and one concrete over-budget cell. -/
theorem draw_bar_cells_witness :
    draw_bar 2 0 0 = [] ∧
    (CellState.fillOver = CellState.fillOver ↔
      (1 : ℤ) < usage_pos 5 100 ∧ (0 : ℚ) < 100 ∧ glide_pos 5 0 ≤ 1) := by
  constructor
  · exact (draw_bar_cells 2 0 0).1 (by norm_num)
  · refine ((draw_bar_cells 5 100 0).2.1 (by norm_num) 1 CellState.fillOver ?_ ?_).2
    · rw [mem_draw_bar (by norm_num)]
      refine ⟨by norm_num, by norm_num, ?_⟩
      unfold cellState
      rw [if_neg (by rw [glide_pos_zero 5 (by norm_num)]; norm_num),
        if_pos (by rw [usage_pos_hundred 5 (by norm_num)]; norm_num),
        if_pos (by rw [glide_pos_zero 5 (by norm_num)]; norm_num)]
    · rw [glide_pos_zero 5 (by norm_num)]
      norm_num


/-! ## Focus parser step lemmas -/

/-- `runTrace` unfolding on a cons. -/
theorem runTrace_cons (s : InputState) (t : ℚ) (ch : ℤ) (rest : List (ℚ × ℤ)) :
    runTrace s ((t, ch) :: rest) = runTrace (loopStep s t ch) rest := rfl

/-- `runTrace` unfolding on nil. -/
theorem runTrace_nil (s : InputState) : runTrace s [] = s := rfl

/-- An `ESC` byte always restarts the buffer, whatever the current state. -/
theorem loopStep_esc (s : InputState) (t : ℚ) :
    loopStep s t 27 = { s with escape_buf := [27], escape_time := t } := by
  simp only [loopStep, processByte, staleClear]
  norm_num

/-- A `'['` byte within the window extends `[27]` to `[27, 91]`. -/
theorem loopStep_bracket (s : InputState) (t : ℚ) (hb : s.escape_buf = [27])
    (hf : ¬ 1 / 2 < t - s.escape_time) :
    loopStep s t 91 = { s with escape_buf := [27, 91] } := by
  simp only [loopStep, processByte, staleClear, hb]
  norm_num [hf]

/-- A `'['` byte after the window clears the buffer. -/
theorem loopStep_bracket_stale (s : InputState) (t : ℚ) (hb : s.escape_buf = [27])
    (hf : 1 / 2 < t - s.escape_time) :
    loopStep s t 91 = { s with escape_buf := [] } := by
  simp only [loopStep, processByte, staleClear, hb]
  norm_num [hf]

/-- `'I'` after `ESC [` sets focus and returns to Idle. -/
theorem loopStep_focus_in (s : InputState) (t : ℚ) (hb : s.escape_buf = [27, 91]) :
    loopStep s t 73 = { s with escape_buf := [], has_focus := true } := by
  simp [loopStep, processByte, staleClear, hb]

/-- `'O'` after `ESC [` clears focus and returns to Idle. -/
theorem loopStep_focus_out (s : InputState) (t : ℚ) (hb : s.escape_buf = [27, 91]) :
    loopStep s t 79 = { s with escape_buf := [], has_focus := false } := by
  simp [loopStep, processByte, staleClear, hb]

/-- Any non-`ESC`, non-`I`, non-`O` byte after `ESC [` discards the buffer
and leaves focus alone. -/
theorem loopStep_discard (s : InputState) (t : ℚ) (ch : ℤ) (hb : s.escape_buf = [27, 91])
    (h27 : ch ≠ 27) (h73 : ch ≠ 73) (h79 : ch ≠ 79) :
    loopStep s t ch = { s with escape_buf := [] } := by
  simp [loopStep, processByte, staleClear, hb, h27, h73, h79]

/-- With an empty buffer, a non-`ESC` byte leaves the parser state unchanged
(it is dispatched as an ordinary keystroke). -/
theorem loopStep_idle (s : InputState) (t : ℚ) (ch : ℤ) (hb : s.escape_buf = [])
    (h27 : ch ≠ 27) :
    loopStep s t ch = s := by
  simp [loopStep, processByte, staleClear, hb, h27]

/-! ## C4 -/

/-- C4: starting from Idle with all bytes within the 0.5 s window,
`[27, 91, 73]` sets focus, `[27, 91, 79]` clears it, and `[27, 91, 88]`
leaves focus unchanged and returns the parser to Idle. -/
theorem focus_sequences (s : InputState) (t1 t2 t3 : ℚ) (_hs : s.escape_buf = [])
    (h21 : t2 - t1 ≤ 1 / 2) (_h31 : t3 - t1 ≤ 1 / 2) :
    (runTrace s [(t1, 27), (t2, 91), (t3, 73)]).has_focus = true ∧
    (runTrace s [(t1, 27), (t2, 91), (t3, 79)]).has_focus = false ∧
    (runTrace s [(t1, 27), (t2, 91), (t3, 88)]).has_focus = s.has_focus ∧
    (runTrace s [(t1, 27), (t2, 91), (t3, 88)]).escape_buf = [] := by
  have h21n : ¬ 1 / 2 < t2 - t1 := not_lt.mpr h21
  refine ⟨?_, ?_, ?_, ?_⟩
  · rw [runTrace_cons, loopStep_esc, runTrace_cons, loopStep_bracket _ t2 rfl h21n,
      runTrace_cons, loopStep_focus_in _ t3 rfl, runTrace_nil]
  · rw [runTrace_cons, loopStep_esc, runTrace_cons, loopStep_bracket _ t2 rfl h21n,
      runTrace_cons, loopStep_focus_out _ t3 rfl, runTrace_nil]
  · rw [runTrace_cons, loopStep_esc, runTrace_cons, loopStep_bracket _ t2 rfl h21n,
      runTrace_cons,
      loopStep_discard _ t3 88 rfl (by norm_num) (by norm_num) (by norm_num),
      runTrace_nil]
  · rw [runTrace_cons, loopStep_esc, runTrace_cons, loopStep_bracket _ t2 rfl h21n,
      runTrace_cons,
      loopStep_discard _ t3 88 rfl (by norm_num) (by norm_num) (by norm_num),
      runTrace_nil]

/-- C4 witness at concrete times. -/
theorem focus_sequences_witness :
    (runTrace ⟨[], 0, false⟩ [(0, 27), (0, 91), (0, 73)]).has_focus = true ∧
    (runTrace ⟨[], 0, false⟩ [(0, 27), (0, 91), (0, 79)]).has_focus = false ∧
    (runTrace ⟨[], 0, false⟩ [(0, 27), (0, 91), (0, 88)]).has_focus = false ∧
    (runTrace ⟨[], 0, false⟩ [(0, 27), (0, 91), (0, 88)]).escape_buf = [] :=
  focus_sequences ⟨[], 0, false⟩ 0 0 0 rfl (by norm_num) (by norm_num)

/-! ## C2 -/

/-- C2 counterexample: in state SawEscBracket an `ESC` byte is not merely
dropped; it restarts a sequence, so `[27, 91, 27, 91, 73]` from Idle sets
focus, contradicting the claim that FocusState is left unchanged. -/
theorem esc_in_bracket_restarts_cex :
    (runTrace ⟨[], 0, false⟩
        [(0, 27), (0, 91), (0, 27), (0, 91), (0, 73)]).has_focus = true := by
  rw [runTrace_cons, loopStep_esc, runTrace_cons, loopStep_bracket _ 0 rfl (by norm_num),
    runTrace_cons, loopStep_esc, runTrace_cons, loopStep_bracket _ 0 rfl (by norm_num),
    runTrace_cons, loopStep_focus_in _ 0 rfl, runTrace_nil]

/-- C2 (amended): when the parser is in SawEscBracket and the next byte is
`ESC`, that byte restarts a new escape sequence (buffer becomes `[27]` with
a fresh timestamp, focus untouched); consequently feeding
`[27, 91, 27, 91, 73]` from Idle sets FocusState to true. -/
theorem esc_in_bracket_restarts (s : InputState) (t : ℚ)
    (_h : s.escape_buf = [27, 91]) :
    processByte s t 27 = { s with escape_buf := [27], escape_time := t } ∧
    (runTrace { escape_buf := ([] : List ℤ), escape_time := s.escape_time,
                has_focus := s.has_focus }
        [(t, 27), (t, 91), (t, 27), (t, 91), (t, 73)]).has_focus = true := by
  refine ⟨rfl, ?_⟩
  rw [runTrace_cons, loopStep_esc, runTrace_cons, loopStep_bracket _ t rfl (by norm_num),
    runTrace_cons, loopStep_esc, runTrace_cons, loopStep_bracket _ t rfl (by norm_num),
    runTrace_cons, loopStep_focus_in _ t rfl, runTrace_nil]

/-- C2 (amended) witness. -/
theorem esc_in_bracket_restarts_witness :
    processByte ⟨[27, 91], 0, false⟩ 0 27
      = { escape_buf := [27], escape_time := 0, has_focus := false } ∧
    (runTrace ⟨[], 0, false⟩
        [(0, 27), (0, 91), (0, 27), (0, 91), (0, 73)]).has_focus = true :=
  esc_in_bracket_restarts ⟨[27, 91], 0, false⟩ 0 rfl

/-! ## C3 -/

/-- C3 counterexample: a sequence whose completing byte is processed in the
same iteration it arrives can still change FocusState even though it
completes more than 0.5 s after the initial `ESC` (the stale check runs
only after the byte is processed). -/
theorem focus_timeout_cex :
    (runTrace ⟨[], 0, false⟩ [(0, 27), (2/5, 91), (9/10, 73)]).has_focus = true ∧
    (1/2 : ℚ) < 9/10 - 0 := by
  refine ⟨?_, by norm_num⟩
  rw [runTrace_cons, loopStep_esc, runTrace_cons,
    loopStep_bracket _ (2/5) rfl (by norm_num),
    runTrace_cons, loopStep_focus_in _ (9/10) rfl, runTrace_nil]

/-- C3 (amended): the stale-buffer guard runs after the byte of each
iteration is processed, so after any iteration a pending partial buffer is
at most 0.5 s old; in particular an `ESC` whose following `'['` arrives
after the window never completes, but a completing byte processed in the
same iteration may still change FocusState past the 0.5 s mark. -/
theorem focus_timeout_amended (s : InputState) (t t1 t2 t3 : ℚ) (ch : ℤ)
    (hpend : (loopStep s t ch).escape_buf ≠ []) (hlate : 1 / 2 < t2 - t1) :
    t - (loopStep s t ch).escape_time ≤ 1 / 2 ∧
    (runTrace s [(t1, 27), (t2, 91), (t3, 73)]).has_focus = s.has_focus := by
  constructor
  · have hstep : loopStep s t ch = staleClear (processByte s t ch) t := rfl
    by_cases hc : (processByte s t ch).escape_buf ≠ [] ∧
        1 / 2 < t - (processByte s t ch).escape_time
    · exfalso
      apply hpend
      rw [hstep]
      unfold staleClear
      rw [if_pos hc]
    · have he : loopStep s t ch = processByte s t ch := by
        rw [hstep]
        unfold staleClear
        rw [if_neg hc]
      rw [he] at hpend ⊢
      push_neg at hc
      exact hc hpend
  · rw [runTrace_cons, loopStep_esc, runTrace_cons, loopStep_bracket_stale _ t2 rfl hlate,
      runTrace_cons, loopStep_idle _ t3 73 rfl (by norm_num), runTrace_nil]

/-- C3 (amended) witness. -/
theorem focus_timeout_amended_witness :
    (0 : ℚ) - (loopStep ⟨[], 0, false⟩ 0 27).escape_time ≤ 1 / 2 ∧
    (runTrace ⟨[], 0, false⟩ [(0, 27), (1, 91), (1, 73)]).has_focus = false :=
  focus_timeout_amended ⟨[], 0, false⟩ 0 0 1 1 27
    (by rw [loopStep_esc]; simp) (by norm_num)

/-! ## C8 -/

/-- C8: the scheduler triggers a fetch exactly under the claim's condition:
a past success with the focus-dependent interval elapsed, or no success
ever, an error set, and at least 10 s since the last attempt. -/
theorem shouldFetch_iff_spec (fs : FetchState) (has_focus : Bool) (now : ℚ) :
    shouldFetch fs has_focus now = true ↔ schedulerSpec fs has_focus now := by
  unfold shouldFetch schedulerSpec
  cases hl : fs.last_fetch_time with
  | none => simp [hl, Option.isSome_iff_ne_none]
  | some lft =>
      cases has_focus with
      | false => simp [hl, REFRESH_FOCUSED, REFRESH_UNFOCUSED]
      | true => simp [hl, REFRESH_FOCUSED, REFRESH_UNFOCUSED]

/-! ## C9 -/

/-- C9: a failed fetch (credential or network) sets `error_msg` and leaves
`categories` and `last_fetch_time` unchanged; a successful fetch replaces
`categories`, clears `error_msg` and stamps `last_fetch_time`; in every
case `last_fetch_attempt` is updated. -/
theorem do_fetch_updates (s : FetchState) (tA tS : ℚ) :
    (∀ m, (do_fetch s (FetchOutcome.credErr m) tA tS).error_msg = some m ∧
      (do_fetch s (FetchOutcome.credErr m) tA tS).categories = s.categories ∧
      (do_fetch s (FetchOutcome.credErr m) tA tS).last_fetch_time = s.last_fetch_time ∧
      (do_fetch s (FetchOutcome.credErr m) tA tS).last_fetch_attempt = tA) ∧
    (∀ m, (do_fetch s (FetchOutcome.netErr m) tA tS).error_msg = some m ∧
      (do_fetch s (FetchOutcome.netErr m) tA tS).categories = s.categories ∧
      (do_fetch s (FetchOutcome.netErr m) tA tS).last_fetch_time = s.last_fetch_time ∧
      (do_fetch s (FetchOutcome.netErr m) tA tS).last_fetch_attempt = tA) ∧
    (∀ data, (do_fetch s (FetchOutcome.ok data) tA tS).error_msg = none ∧
      (do_fetch s (FetchOutcome.ok data) tA tS).categories = parse_usage data ∧
      (do_fetch s (FetchOutcome.ok data) tA tS).last_fetch_time = some tS ∧
      (do_fetch s (FetchOutcome.ok data) tA tS).last_fetch_attempt = tA) :=
  ⟨fun _ => ⟨rfl, rfl, rfl, rfl⟩, fun _ => ⟨rfl, rfl, rfl, rfl⟩,
   fun _ => ⟨rfl, rfl, rfl, rfl⟩⟩

/-! ## C10 -/

/-- Every `do_fetch` call establishes the success-or-error invariant. -/
theorem do_fetch_establishes (s : FetchState) (o : FetchOutcome) (tA tS : ℚ) :
    fetchInv (do_fetch s o tA tS) := by
  cases o with
  | credErr m => right; simp [do_fetch]
  | netErr m => right; simp [do_fetch]
  | ok data => left; simp [do_fetch]

/-- Every loop iteration preserves the success-or-error invariant. -/
theorem loopIter_preserves (s : LoopState) (t : ℚ) (ch : ℤ) (o1 o2 : FetchOutcome)
    (h : fetchInv s.fetch) : fetchInv (loopIter s t ch o1 o2).fetch := by
  simp only [loopIter]
  repeat' split
  all_goals first
    | exact h
    | exact do_fetch_establishes _ _ _ _

/-- The invariant is preserved along any loop trace. -/
theorem runLoop_preserves (trace : List (ℚ × ℤ × FetchOutcome × FetchOutcome)) :
    ∀ s : LoopState, fetchInv s.fetch → fetchInv (runLoop s trace).fetch := by
  induction trace with
  | nil => intro s h; exact h
  | cons e rest ih =>
      intro s h
      obtain ⟨t, ch, o1, o2⟩ := e
      exact ih _ (loopIter_preserves s t ch o1 o2 h)

/-- C10: after the initial fetch, every state the loop reaches has a success
timestamp or an error message set, whatever bytes arrive and however the
subsequent fetches turn out. -/
theorem loop_success_or_error (s0 : LoopState) (o : FetchOutcome) (tA tS : ℚ)
    (trace : List (ℚ × ℤ × FetchOutcome × FetchOutcome)) :
    fetchInv (runLoop { s0 with fetch := do_fetch s0.fetch o tA tS } trace).fetch :=
  runLoop_preserves trace _ (do_fetch_establishes s0.fetch o tA tS)
